import Mathlib

/-!
# Verification of the multi-agent retrieval pipeline

This file embeds the retrieval core of the repository's multi-agent RAG
notebook: the static tip store `health_tips` and the retrieval function
`retrieve_tips`, translated from the Python source, together with a model
of the turn coordinator described by the design document.

Python string primitives are modelled as follows:
* `str.lower` is modelled per character by `Char.toLower`, which agrees with
  Python on the Basic Latin (ASCII) range and on U+00DF, and leaves other
  characters unchanged.
* `str.upper` is modelled by `pyUpper`, which agrees with Python on the
  ASCII range and on U+00DF (whose Python uppercase is the two-letter
  string "SS"), and leaves other characters unchanged.
* `str.split()` (no separator argument) is modelled by `pySplit`: split on
  runs of ASCII whitespace, discarding empty fragments.
* the `in` operator on strings is modelled by `containsSub`: substring
  containment.
-/

/-- A health tip record, as stored in the notebook's `health_tips` list:
a dictionary with keys `id`, `content` and `source`. -/
structure Tip where
  id : String
  content : String
  source : String
deriving DecidableEq, Repr

/-- The static tip store defined in the notebook (five tips, verbatim). -/
def health_tips : List Tip :=
  [ { id := "tip1", content := "Do a 10-minute HIIT workout to boost your metabolism.", source := "Fitness Guru" },
    { id := "tip2", content := "Take a brisk 15-minute walk to clear your mind and improve circulation.", source := "Health Coach" },
    { id := "tip3", content := "Stretch for 5 minutes every hour if you\x27re sitting at a desk.", source := "Wellness Expert" },
    { id := "tip4", content := "Incorporate strength training twice a week for overall fitness.", source := "Personal Trainer" },
    { id := "tip5", content := "Drink water regularly to stay hydrated during workouts.", source := "Nutritionist" } ]

/-- The rendering applied to a matching tip in `retrieve_tips`:
the Python f-string `f"Source: \x7btip['source']\x7d => \x7btip['content']\x7d"`. -/
def render (t : Tip) : String :=
  "Source: " ++ t.source ++ " => " ++ t.content

/-- Python `str.lower` on the underlying character list, modelled per
character by `Char.toLower` (exact on ASCII; identity elsewhere, which
agrees with Python on U+00DF). -/
def pyLowerData (cs : List Char) : List Char :=
  cs.map Char.toLower

/-- Python `str.lower`, modelled on ASCII. -/
def pyLower (s : String) : String :=
  ⟨pyLowerData s.data⟩

/-- Python `str.upper` of a single character, as a character list:
U+00DF uppercases to "SS" in Python; ASCII letters map by `Char.toUpper`;
other characters are left unchanged. -/
def charUpperSeg (c : Char) : List Char :=
  if c.toNat = 223 then [Char.ofNat 83, Char.ofNat 83] else [c.toUpper]

/-- Python `str.upper` on the underlying character list. -/
def pyUpperData : List Char → List Char
  | [] => []
  | c :: cs => charUpperSeg c ++ pyUpperData cs

/-- Python `str.upper`, modelled on ASCII plus U+00DF. -/
def pyUpper (s : String) : String :=
  ⟨pyUpperData s.data⟩

/-- The whitespace characters recognised by Python `str.split()` within
the ASCII range: space, tab, newline, carriage return, vertical tab and
form feed. -/
def isPySpace (c : Char) : Bool :=
  c.toNat = 32 || c.toNat = 9 || c.toNat = 10 || c.toNat = 13 || c.toNat = 11 || c.toNat = 12

/-- Worker for `pySplit`: `cur` holds the characters of the word currently
being read, in reverse order. -/
def pySplitAux : List Char → List Char → List String
  | [], [] => []
  | [], cur => [⟨cur.reverse⟩]
  | c :: cs, cur =>
    if isPySpace c then
      if cur.isEmpty then pySplitAux cs []
      else ⟨cur.reverse⟩ :: pySplitAux cs []
    else pySplitAux cs (c :: cur)

/-- Python `str.split()` with no argument: split on runs of whitespace,
discarding empty fragments (so the empty string splits to `[]`). -/
def pySplit (s : String) : List String :=
  pySplitAux s.data []

/-- Python's `needle in hay` on strings: substring containment. -/
def containsSub (needle : List Char) : List Char → Bool
  | [] => needle.isEmpty
  | c :: cs => needle.isPrefixOf (c :: cs) || containsSub needle cs

/-- The matching test of `retrieve_tips`:
`any(word in tip["content"].lower() for word in query_lower.split())`. -/
def tipMatches (qwords : List String) (t : Tip) : Bool :=
  qwords.any (fun w => containsSub w.data (pyLower t.content).data)

/-- The tips of `store` appended to `relevant` by the loop of
`retrieve_tips`, in store order. -/
def matchedTipsOf (store : List Tip) (query : String) : List Tip :=
  store.filter (tipMatches (pySplit (pyLower query)))

/-- The list of rendered lines produced by `retrieve_tips` over an explicit
store: the renderings of the matching tips, or of the whole store when no
tip matches (the demo fallback). -/
def retrieveLinesOf (store : List Tip) (query : String) : List String :=
  let relevant := (matchedTipsOf store query).map render
  if relevant.isEmpty then store.map render else relevant

/-- The tips matched by `retrieve_tips` against the notebook's store. -/
def matchedTips (query : String) : List Tip :=
  matchedTipsOf health_tips query

/-- The rendered lines of `retrieve_tips` against the notebook's store. -/
def retrieveLines (query : String) : List String :=
  retrieveLinesOf health_tips query

/-- The notebook's `retrieve_tips` function: lowercase the query, split it
on whitespace, keep every tip whose lowercased content contains some query
word as a substring, render each kept tip, fall back to all tips when none
match, and join the renderings with newlines. -/
def retrieve_tips (query : String) : String :=
  String.intercalate "\n" (retrieveLines query)

example : pySplit "a  b" = ["a", "b"] := by decide
example : pySplit "" = [] := by decide
example : containsSub "hiit".data "do a 10-minute hiit workout".data = true := by decide
example : matchedTips "HIIT workout" =
    [ { id := "tip1", content := "Do a 10-minute HIIT workout to boost your metabolism.", source := "Fitness Guru" },
      { id := "tip5", content := "Drink water regularly to stay hydrated during workouts.", source := "Nutritionist" } ] := by decide
example : matchedTips "work" ≠ [] := by decide
example : matchedTips "zzz qqq" = [] := by decide

/-! ## Substring containment, characterised -/

/-- `needle` occurs contiguously inside `hay`. -/
def IsSubstr (needle hay : List Char) : Prop :=
  ∃ l r, hay = l ++ needle ++ r

theorem containsSub_iff (n h : List Char) : containsSub n h = true ↔ IsSubstr n h := by
  induction h with
  | nil =>
    simp only [containsSub, List.isEmpty_iff, IsSubstr]
    constructor
    · rintro rfl
      exact ⟨[], [], rfl⟩
    · rintro ⟨l, r, hlr⟩
      have := List.append_eq_nil.mp hlr.symm
      have := List.append_eq_nil.mp this.1
      exact this.2
  | cons c cs ih =>
    simp only [containsSub, Bool.or_eq_true, List.isPrefixOf_iff_prefix, ih, IsSubstr]
    constructor
    · rintro (⟨t, ht⟩ | ⟨l, r, hlr⟩)
      · exact ⟨[], t, by simp [ht]⟩
      · exact ⟨c :: l, r, by simp [hlr]⟩
    · rintro ⟨l, r, hlr⟩
      match l, hlr with
      | [], hlr => exact Or.inl ⟨r, by simpa using hlr.symm⟩
      | c₂ :: l₂, hlr =>
        refine Or.inr ⟨l₂, r, ?_⟩
        have := List.cons.injEq c cs c₂ (l₂ ++ n ++ r) ▸ hlr
        simpa using (List.cons_eq_cons.mp hlr).2

instance (n h : List Char) : Decidable (IsSubstr n h) :=
  decidable_of_iff _ (containsSub_iff n h)

/-- Matching as the specification phrases it: some whitespace-separated word
of the lowercased query occurs as a substring of the tip's lowercased
content. -/
def specMatches (q : String) (t : Tip) : Prop :=
  ∃ w ∈ pySplit (pyLower q), IsSubstr w.data (pyLower t.content).data

instance (q : String) (t : Tip) : Decidable (specMatches q t) := by
  unfold specMatches
  infer_instance

/-- The retrieval algorithm exactly as the specification words it:
lowercase the query and split it on whitespace; a tip matches iff at least
one of those words occurs as a substring of the tip's lowercased content;
render each matching tip; newline-join the renderings, substituting the
full store when no tip matches. -/
def retrieveSpecAlg (q : String) : String :=
  let rendered := (health_tips.filter (fun t => decide (specMatches q t))).map render
  String.intercalate "\n" (if rendered = [] then health_tips.map render else rendered)

theorem tipMatches_iff (q : String) (t : Tip) :
    tipMatches (pySplit (pyLower q)) t = true ↔ specMatches q t := by
  simp only [tipMatches, List.any_eq_true, containsSub_iff, specMatches]

theorem matchedTips_eq_spec_filter (q : String) :
    matchedTips q = health_tips.filter (fun t => decide (specMatches q t)) := by
  refine List.filter_congr ?_
  intro t _
  rcases hb : tipMatches (pySplit (pyLower q)) t with _ | _
  · have : ¬ specMatches q t := fun hs => by
      rw [(tipMatches_iff q t).mpr hs] at hb
      cases hb
    simp [this]
  · simp [(tipMatches_iff q t).mp hb]

/-! ## Basic shape of the retrieval output -/

theorem retrieveLines_ne_nil (q : String) : retrieveLines q ≠ [] := by
  unfold retrieveLines retrieveLinesOf
  by_cases hm : matchedTipsOf health_tips q = []
  · rw [hm]
    simp [health_tips]
  · simp [hm]

theorem retrieveLines_sublist (q : String) :
    (retrieveLines q).Sublist (health_tips.map render) := by
  unfold retrieveLines retrieveLinesOf
  by_cases hm : matchedTipsOf health_tips q = []
  · rw [hm]
    simp [List.Sublist.refl]
  · have hcond : ((matchedTipsOf health_tips q).map render).isEmpty = false := by
      simp [hm]
    simp only [hcond, Bool.false_eq_true, if_false]
    exact (List.filter_sublist health_tips).map render

theorem exists_rendered_mem (q : String) :
    ∃ t ∈ health_tips, render t ∈ retrieveLines q := by
  unfold retrieveLines retrieveLinesOf
  by_cases hm : matchedTipsOf health_tips q = []
  · rw [hm]
    refine ⟨⟨"tip1", "Do a 10-minute HIIT workout to boost your metabolism.", "Fitness Guru"⟩,
      by simp [health_tips], ?_⟩
    simp [health_tips]
  · have hcond : ((matchedTipsOf health_tips q).map render).isEmpty = false := by
      simp [hm]
    rcases List.exists_mem_of_ne_nil _ hm with ⟨t, ht⟩
    have htmem : t ∈ health_tips := by
      unfold matchedTipsOf at ht
      exact (List.mem_filter.mp ht).1
    refine ⟨t, htmem, ?_⟩
    simp only [hcond, Bool.false_eq_true, if_false]
    exact List.mem_map_of_mem render ht

/-- C1: for every query string `q`, `retrieve_tips` computes its result by
the algorithm the specification states: lowercase `q` and split it on
whitespace into words; a tip matches iff at least one of those words occurs
as a substring of the tip's lowercased content; each matching tip is
rendered as `"Source: " ++ source ++ " => " ++ content`; the result is the
newline-join of these renderings, with the full-store fallback applied
when no tip matches. -/
theorem retrieve_tips_follows_spec_algorithm (q : String) :
    retrieve_tips q = retrieveSpecAlg q := by
  unfold retrieve_tips retrieveSpecAlg retrieveLines retrieveLinesOf
  rw [show matchedTipsOf health_tips q = matchedTips q from rfl,
    matchedTips_eq_spec_filter]
  simp [List.isEmpty_iff]

/-- C2: for every query string `q`, including the empty string, the output
of `retrieve_tips q` is non-empty: the list of rendered lines it joins is
non-empty and contains the rendering of at least one stored tip. -/
theorem retrieve_tips_output_nonempty (q : String) :
    retrieve_tips q = String.intercalate "\n" (retrieveLines q) ∧
    retrieveLines q ≠ [] ∧
    ∃ t ∈ health_tips, render t ∈ retrieveLines q :=
  ⟨rfl, retrieveLines_ne_nil q, exists_rendered_mem q⟩

/-- C3: whenever no whitespace-separated word of the lowercased query
occurs as a substring of any tip's lowercased content — in particular for
the empty query, whose word list is empty — `retrieve_tips` returns the
newline-join of the renderings of all tips of the store, in store order. -/
theorem retrieve_tips_fallback_on_no_overlap (q : String)
    (h : ∀ w ∈ pySplit (pyLower q), ∀ t ∈ health_tips,
      ¬ IsSubstr w.data (pyLower t.content).data) :
    retrieve_tips q = String.intercalate "\n" (health_tips.map render) := by
  have hm : matchedTipsOf health_tips q = [] := by
    refine List.filter_eq_nil_iff.mpr ?_
    intro t ht
    rw [Bool.not_eq_true, ← Bool.not_eq_true]
    intro hb
    rcases (tipMatches_iff q t).mp hb with ⟨w, hw, hsub⟩
    exact h w hw t ht hsub
  unfold retrieve_tips retrieveLines retrieveLinesOf
  simp [hm]

theorem retrieve_tips_fallback_on_no_overlap_witness :
    retrieve_tips "" = String.intercalate "\n" (health_tips.map render) :=
  retrieve_tips_fallback_on_no_overlap "" (by decide)

/-- C5: for the query `"HIIT workout"`, the output of `retrieve_tips`
includes the rendering of the tip `tip1` whose source is
`"Fitness Guru"`. -/
theorem retrieve_tips_hiit_includes_fitness_guru :
    ∃ t ∈ health_tips, t.id = "tip1" ∧ t.source = "Fitness Guru" ∧
      t.content = "Do a 10-minute HIIT workout to boost your metabolism." ∧
      render t ∈ retrieveLines "HIIT workout" := by
  decide

/-- The result of one call of `retrieve_tips` with the module-level store
threaded as explicit state. -/
structure RetrieveResult where
  output : String
  store : List Tip
deriving DecidableEq

/-- `retrieve_tips` as a state-passing function over the module-level tip
store: the body only reads the store (the `relevant` list it appends to is
local), so the store it hands back is the store it was given. -/
def retrieve_tips_st (store : List Tip) (query : String) : RetrieveResult :=
  { output := String.intercalate "\n" (retrieveLinesOf store query),
    store := store }

/-- C7: calling `retrieve_tips` leaves the tip store unchanged — the list
itself and the `id`, `content` and `source` fields of every tip are
identical before and after the call — and on the notebook's store the
output agrees with `retrieve_tips`. -/
theorem retrieve_tips_preserves_store (store : List Tip) (q : String) :
    (retrieve_tips_st store q).store = store ∧
    ((retrieve_tips_st store q).store).map Tip.id = store.map Tip.id ∧
    ((retrieve_tips_st store q).store).map Tip.content = store.map Tip.content ∧
    ((retrieve_tips_st store q).store).map Tip.source = store.map Tip.source ∧
    (retrieve_tips_st health_tips q).output = retrieve_tips q :=
  ⟨rfl, rfl, rfl, rfl, rfl⟩

/-- C10: for every query, the rendered lines joined by `retrieve_tips` form
a sublist of the renderings of the whole store — so every line renders a
stored tip, no tip is rendered twice, and the lines appear in store
order — and there are between 1 and 5 of them. -/
theorem retrieve_tips_lines_shape (q : String) :
    retrieve_tips q = String.intercalate "\n" (retrieveLines q) ∧
    (retrieveLines q).Sublist (health_tips.map render) ∧
    1 ≤ (retrieveLines q).length ∧ (retrieveLines q).length ≤ 5 := by
  refine ⟨rfl, retrieveLines_sublist q, ?_, ?_⟩
  · exact Nat.succ_le_of_lt (List.length_pos.mpr (retrieveLines_ne_nil q))
  · have := (retrieveLines_sublist q).length_le
    simpa [health_tips] using this

/-! ## Word sharing versus substring matching (C4) -/

/-- Tip selection as the overview sentence words it: the query and the tip
content share at least one word, i.e. some whitespace-separated word of the
lowercased query equals some whitespace-separated word of the tip's
lowercased content. -/
def sharesWord (query : String) (t : Tip) : Bool :=
  (pySplit (pyLower query)).any
    (fun w => (pySplit (pyLower t.content)).any (fun cw => cw == w))

/-- C4, counterexample: for the query `"work"` at least one tip matches,
yet a rendered tip shares no word with the query — `"work"` occurs only as
a proper substring of `"workout"`/`"workouts."`, never as a whole word — so
the rendered set is not the shares-a-word subset the claim describes. -/
theorem matched_set_not_shared_word_subset :
    matchedTips "work" ≠ [] ∧
    ∃ t ∈ matchedTips "work", sharesWord "work" t = false := by
  decide

/-- C4 amended: for every query for which at least one tip matches, the
tips rendered by `retrieve_tips` are exactly those whose lowercased content
contains some whitespace-separated word of the lowercased query as a
substring (substring containment, not whole-word sharing). -/
theorem matched_tips_are_substring_matches (q : String)
    (hne : matchedTips q ≠ []) :
    retrieveLines q = (matchedTips q).map render ∧
    ∀ t ∈ health_tips, (t ∈ matchedTips q ↔
      ∃ w ∈ pySplit (pyLower q), IsSubstr w.data (pyLower t.content).data) := by
  constructor
  · have hne2 : matchedTipsOf health_tips q ≠ [] := hne
    have hcond : ((matchedTipsOf health_tips q).map render).isEmpty = false := by
      simp [hne2]
    unfold retrieveLines retrieveLinesOf
    simp only [hcond, Bool.false_eq_true, if_false]
    rfl
  · intro t ht
    constructor
    · intro hmem
      unfold matchedTips matchedTipsOf at hmem
      exact (tipMatches_iff q t).mp (List.mem_filter.mp hmem).2
    · intro hex
      unfold matchedTips matchedTipsOf
      exact List.mem_filter.mpr ⟨ht, (tipMatches_iff q t).mpr hex⟩

theorem matched_tips_are_substring_matches_witness :
    retrieveLines "work" = (matchedTips "work").map render :=
  (matched_tips_are_substring_matches "work" (by decide)).1

/-! ## Case handling of the query (C9) -/

theorem ofNat_add32_toNat : ∀ n < 91, 65 ≤ n → (Char.ofNat (n + 32)).toNat = n + 32 := by
  decide

theorem ofNat_sub32_toNat : ∀ n < 123, 97 ≤ n → (Char.ofNat (n - 32)).toNat = n - 32 := by
  decide

theorem toLower_toLower (c : Char) : c.toLower.toLower = c.toLower := by
  simp only [Char.toLower]
  by_cases h : c.toNat ≥ 65 ∧ c.toNat ≤ 90
  · simp only [if_pos h]
    have h2 : (Char.ofNat (c.toNat + 32)).toNat = c.toNat + 32 :=
      ofNat_add32_toNat c.toNat (by omega) (by omega)
    rw [h2, if_neg (by omega)]
  · simp only [if_neg h]

theorem toLower_toUpper_ascii (c : Char) (hc : c.toNat < 128) :
    c.toUpper.toLower = c.toLower := by
  simp only [Char.toUpper, Char.toLower]
  by_cases h : c.toNat ≥ 97 ∧ c.toNat ≤ 122
  · simp only [if_pos h]
    have h2 : (Char.ofNat (c.toNat - 32)).toNat = c.toNat - 32 :=
      ofNat_sub32_toNat c.toNat (by omega) (by omega)
    rw [h2, if_pos (by omega), if_neg (by omega)]
    have h3 : c.toNat - 32 + 32 = c.toNat := by omega
    rw [h3, Char.ofNat_toNat]
  · simp only [if_neg h]

theorem pyLowerData_idem (cs : List Char) :
    pyLowerData (pyLowerData cs) = pyLowerData cs := by
  induction cs with
  | nil => rfl
  | cons c cs ih =>
    simp only [pyLowerData, List.map_cons] at *
    rw [toLower_toLower]
    exact congrArg (Char.toLower c :: ·) ih

theorem pyLowerData_pyUpperData_ascii (cs : List Char)
    (h : ∀ c ∈ cs, c.toNat < 128) :
    pyLowerData (pyUpperData cs) = pyLowerData cs := by
  induction cs with
  | nil => rfl
  | cons c cs ih =>
    have hc : c.toNat < 128 := h c (List.mem_cons_self c cs)
    have hrest : ∀ x ∈ cs, x.toNat < 128 := fun x hx => h x (List.mem_cons_of_mem c hx)
    have hseg : charUpperSeg c = [c.toUpper] := by
      unfold charUpperSeg
      rw [if_neg (by omega)]
    simp only [pyUpperData, hseg, pyLowerData, List.map_append, List.map_cons,
      List.map_nil, List.singleton_append]
    rw [toLower_toUpper_ascii c hc]
    exact congrArg (Char.toLower c :: ·) (ih hrest)

/-- All characters of `s` lie in the ASCII range, where the model of
Python case mapping is exact. -/
def allAscii (s : String) : Bool :=
  s.data.all (fun c => c.toNat < 128)

theorem pyLower_idem (q : String) : pyLower (pyLower q) = pyLower q :=
  congrArg String.mk (pyLowerData_idem q.data)

theorem pyLower_pyUpper_ascii (q : String) (h : allAscii q = true) :
    pyLower (pyUpper q) = pyLower q := by
  refine congrArg String.mk (pyLowerData_pyUpperData_ascii q.data ?_)
  intro c hc
  simpa using List.all_eq_true.mp h c hc

/-- `retrieve_tips` reads its query argument only through its
lowercasing. -/
theorem retrieve_tips_congr_lower (q₁ q₂ : String)
    (h : pyLower q₁ = pyLower q₂) : retrieve_tips q₁ = retrieve_tips q₂ := by
  unfold retrieve_tips retrieveLines retrieveLinesOf matchedTipsOf
  rw [h]

/-- C9, counterexample: the query `"ß"` (U+00DF) matches no tip, so the
fallback returns all five tips, while its Python uppercase `"SS"`
lowercases to `"ss"`, which occurs in `"fitness."` — so
`retrieve_tips(q) = retrieve_tips(q.upper())` fails at `q = "ß"`. -/
theorem retrieve_tips_upper_counterexample :
    pyUpper "ß" = "SS" ∧ retrieve_tips "ß" ≠ retrieve_tips (pyUpper "ß") := by
  decide

/-- C9 amended: `retrieve_tips q = retrieve_tips (q.lower())` for every
query (lowercasing the query is idempotent with respect to the result),
and `retrieve_tips q = retrieve_tips (q.upper())` for every query all of
whose characters are ASCII; the uppercase leg can fail outside ASCII
(e.g. at U+00DF). -/
theorem retrieve_tips_case_insensitive (q : String) :
    retrieve_tips q = retrieve_tips (pyLower q) ∧
    (allAscii q = true → retrieve_tips q = retrieve_tips (pyUpper q)) :=
  ⟨retrieve_tips_congr_lower q (pyLower q) (pyLower_idem q).symm,
   fun h => retrieve_tips_congr_lower q (pyUpper q) (pyLower_pyUpper_ascii q h).symm⟩

theorem retrieve_tips_case_insensitive_witness :
    retrieve_tips "Fit" = retrieve_tips (pyLower "Fit") ∧
    retrieve_tips "Fit" = retrieve_tips (pyUpper "Fit") :=
  ⟨(retrieve_tips_case_insensitive "Fit").1,
   (retrieve_tips_case_insensitive "Fit").2 (by decide)⟩

/-! ## Determinism and totality of the retrieval evaluation (C6) -/

/-- Big-step evaluation of the `for` loop of `retrieve_tips`: from the
remaining tips and the accumulated `relevant` list, the final `relevant`
list; a matching tip appends its rendering, any other tip is skipped. -/
inductive LoopEval (qwords : List String) : List Tip → List String → List String → Prop
  | done (acc : List String) : LoopEval qwords [] acc acc
  | keep {t : Tip} {ts : List Tip} {acc out : List String} :
      tipMatches qwords t = true →
      LoopEval qwords ts (acc ++ [render t]) out →
      LoopEval qwords (t :: ts) acc out
  | skip {t : Tip} {ts : List Tip} {acc out : List String} :
      tipMatches qwords t = false →
      LoopEval qwords ts acc out →
      LoopEval qwords (t :: ts) acc out

/-- Big-step evaluation of one call of `retrieve_tips`: run the loop over
the store starting from the empty `relevant` list, apply the fallback when
the loop kept nothing, and join with newlines. -/
inductive RetrieveEval : String → String → Prop
  | mk (q : String) (rel : List String) :
      LoopEval (pySplit (pyLower q)) health_tips [] rel →
      RetrieveEval q
        (String.intercalate "\n"
          (if rel.isEmpty then List.map render health_tips else rel))

theorem loopEval_total (qwords : List String) (ts : List Tip) (acc : List String) :
    LoopEval qwords ts acc (acc ++ (ts.filter (tipMatches qwords)).map render) := by
  induction ts generalizing acc with
  | nil => simpa using LoopEval.done acc
  | cons t ts ih =>
    rcases hm : tipMatches qwords t with _ | _
    · have := LoopEval.skip hm (ih acc)
      simpa [List.filter_cons, hm] using this
    · have := LoopEval.keep hm (ih (acc ++ [render t]))
      simpa [List.filter_cons, hm, List.append_assoc] using this

theorem loopEval_det {qwords : List String} {ts : List Tip}
    {acc out₁ out₂ : List String}
    (h1 : LoopEval qwords ts acc out₁) (h2 : LoopEval qwords ts acc out₂) :
    out₁ = out₂ := by
  induction h1 generalizing out₂ with
  | done acc => cases h2; rfl
  | keep hm h ih =>
    cases h2 with
    | keep hm2 h2 => exact ih h2
    | skip hm2 h2 => rw [hm] at hm2; cases hm2
  | skip hm h ih =>
    cases h2 with
    | keep hm2 h2 => rw [hm2] at hm; cases hm
    | skip hm2 h2 => exact ih h2

/-- C6: `retrieve_tips` is a deterministic total function of its query: the
big-step evaluation of the code relates every query to exactly one output
(so evaluation always produces a result and two evaluations of the same
query agree), and that output is `retrieve_tips q`. -/
theorem retrieve_eval_total_deterministic (q : String) :
    RetrieveEval q (retrieve_tips q) ∧ ∃! r, RetrieveEval q r := by
  have htot : LoopEval (pySplit (pyLower q)) health_tips []
      ((health_tips.filter (tipMatches (pySplit (pyLower q)))).map render) := by
    simpa using loopEval_total (pySplit (pyLower q)) health_tips []
  have heval : RetrieveEval q (retrieve_tips q) := RetrieveEval.mk q _ htot
  refine ⟨heval, retrieve_tips q, heval, ?_⟩
  intro r hr
  cases hr with
  | mk rel hl =>
    rw [loopEval_det hl htot]
    rfl

/-! ## The turn coordinator (C8) -/

/-- The two roles of the pipeline. -/
inductive Role
  | Retriever
  | Responder
deriving DecidableEq, Repr

/-- The states of the coordinator's state machine. -/
inductive CoordState
  | Idle
  | RetrieverTurn
  | ResponderTurn
  | Done
deriving DecidableEq, Repr

/-- Modelled from the spec: one transition of the turn coordinator (the
`RoundRobinGroupChat` over the retriever and responder agents, whose
round-robin semantics live in the external AutoGen SDK, not in this
repository): `Idle → RetrieverTurn` on run start; `RetrieverTurn →
ResponderTurn` after the retriever emits; `ResponderTurn → RetrieverTurn`
unless the invocation count has reached `maxTurns`, in which case `→ Done`;
the configured termination condition is null and never fires. `count` is
the number of role invocations made so far; the step yields the role
invoked, if any, and the next state. -/
def coordStep (maxTurns count : Nat) : CoordState → Option Role × CoordState
  | CoordState.Idle => (none, CoordState.RetrieverTurn)
  | CoordState.RetrieverTurn => (some Role.Retriever, CoordState.ResponderTurn)
  | CoordState.ResponderTurn =>
      (some Role.Responder,
        if maxTurns ≤ count + 1 then CoordState.Done else CoordState.RetrieverTurn)
  | CoordState.Done => (none, CoordState.Done)

/-- Modelled from the spec: run the coordinator until `Done`, collecting
the roles invoked in order; `fuel` bounds the recursion. -/
def coordRun (maxTurns : Nat) : Nat → Nat → CoordState → List Role
  | 0, _, _ => []
  | fuel + 1, count, st =>
    match st with
    | CoordState.Done => []
    | st =>
      match coordStep maxTurns count st with
      | (none, st₂) => coordRun maxTurns fuel count st₂
      | (some r, st₂) => r :: coordRun maxTurns fuel (count + 1) st₂

/-- Modelled from the spec: the sequence of role invocations of one run of
the group chat configured with `max_turns = maxTurns`; starting fuel
`2 * maxTurns + 2` is enough for the run to reach `Done`. -/
def coordTrace (maxTurns : Nat) : List Role :=
  coordRun maxTurns (2 * maxTurns + 2) 0 CoordState.Idle

/-- C8: a run of the coordinator configured with `max_turns = 4` invokes
the roles exactly in the order retriever, responder, retriever, responder —
in particular no more than 4 role invocations are produced and they strictly
alternate starting with the retriever. -/
theorem coordinator_four_turns_round_robin :
    coordTrace 4 = [Role.Retriever, Role.Responder, Role.Retriever, Role.Responder] ∧
    (coordTrace 4).length ≤ 4 := by
  decide
